import Mathlib

/-!
Shallow embedding of the `cb-squid-statuspage-backend` repository
(`backend/checker.py`, `backend/db.py`, `backend/app.py`) in Lean 4.

Conventions of the embedding:
* Python dicts whose keys may be present or absent become structures with
  `Option` fields (`none` = key absent).
* The outcome of the outbound network call and the elapsed wall-clock time
  are nondeterministic inputs of a probe; they are passed explicitly as the
  `outcome : HttpOutcome` and `elapsedMs : ℚ` arguments, so each probe
  function is a pure function of its parameters and of what the network did.
* Floats are modelled as `ℚ`.  Python's `round(x, 1)` becomes `round1`.
* SQLite tables become Lean lists of rows; SQL queries become the
  corresponding list operations; `ORDER BY ts DESC` becomes an insertion
  sort by the relation `tsDesc` (descending timestamps).
-/

namespace Checker

/-- Outcome of the single outbound HTTP GET performed by a probe:
either a response (status code and headers) or a raised transport /
timeout exception, stringified. -/
inductive HttpOutcome where
  | response (status : Nat) (headers : List (String × String))
  | failure (err : String)
  deriving Repr, DecidableEq

/-- Result dictionary returned by the probe functions of
`backend/checker.py`.  A field is `none` exactly when the corresponding
key is absent from the Python dict. -/
structure ProbeResult where
  ok : Bool
  type : Option String := none
  url : Option String := none
  proxy : Option String := none
  test_url : Option String := none
  status_code : Option Nat := none
  latency_ms : Option ℚ := none
  error : Option String := none
  headers : Option (List (String × String)) := none
  deriving Repr, DecidableEq

/-- Python's `round(x, 1)`: rounding to one decimal place.
(The banker's-rounding tie-break of CPython floats is abstracted to
floor-of-half-up; no claim depends on the tie-break.) -/
def round1 (x : ℚ) : ℚ := (⌊x * 10 + 1 / 2⌋ : ℚ) / 10

/-- Python's `str.lower()` on a single ASCII character. -/
def lowerChar (c : Char) : Char :=
  if 65 ≤ c.toNat ∧ c.toNat ≤ 90 then Char.ofNat (c.toNat + 32) else c

/-- Python's `str.lower()` (ASCII fragment, which covers every kind
string the dispatcher compares against). -/
def lowerStr (s : String) : String := ⟨s.data.map lowerChar⟩

/-- `SQUID_HTTP_TARGET` from `backend/checker.py` (the process-wide
default test URL; the environment override is not modelled since every
claim is about the default configuration). -/
def SQUID_HTTP_TARGET : String := "https://httpbin.org/get"

/-- `check_http_server` from `backend/checker.py`. -/
def check_http_server (host : String) (port : Int) (scheme : String)
    (path : String) (timeout : ℚ) (outcome : HttpOutcome)
    (elapsedMs : ℚ) : ProbeResult :=
  let _ := timeout
  let url := s!"{scheme}://{host}:{port}{path}"
  match outcome with
  | .response status hdrs =>
    { ok := true, type := some "http", url := some url,
      status_code := some status, latency_ms := some (round1 elapsedMs),
      headers := some hdrs }
  | .failure e =>
    { ok := false, type := some "http", url := some url,
      error := some e, latency_ms := some (round1 elapsedMs) }

/-- `check_squid_proxy` from `backend/checker.py`. -/
def check_squid_proxy (host : String) (port : Int)
    (test_url : Option String) (timeout : ℚ) (outcome : HttpOutcome)
    (elapsedMs : ℚ) : ProbeResult :=
  let _ := timeout
  let test_url := match test_url with
    | none => SQUID_HTTP_TARGET
    | some u => u
  let proxy := s!"http://{host}:{port}"
  match outcome with
  | .response status hdrs =>
    { ok := true, type := some "squid", proxy := some proxy,
      test_url := some test_url, status_code := some status,
      latency_ms := some (round1 elapsedMs), headers := some hdrs }
  | .failure e =>
    { ok := false, type := some "squid", proxy := some proxy,
      test_url := some test_url, error := some e,
      latency_ms := some (round1 elapsedMs) }

/-- `sanitize_host_port` from `backend/checker.py`: an absent port
defaults to 80, and the port is coerced to an integer. -/
def sanitize_host_port (host : String) (port : Option Int) : String × Int :=
  match port with
  | none => (host, 80)
  | some p => (host, p)

/-- `check` from `backend/checker.py`: dispatch on the lower-cased kind.
`port or 3128` in the squid branch is Python truthiness on an `int`:
it yields 3128 exactly when the sanitized port is 0.  `test_url or None`
maps the empty string to `None`. -/
def check (target_type : String) (host : String) (port : Option Int)
    (scheme : String) (path : String) (timeout : ℚ)
    (test_url : Option String) (outcome : HttpOutcome)
    (elapsedMs : ℚ) : ProbeResult :=
  let hp := sanitize_host_port host port
  let host := hp.1
  let port := hp.2
  if lowerStr target_type = "http" ∨ lowerStr target_type = "nginx" then
    check_http_server host port scheme path timeout outcome elapsedMs
  else if lowerStr target_type = "squid" ∨ lowerStr target_type = "proxy" then
    check_squid_proxy host (if port = 0 then 3128 else port)
      (match test_url with
        | some u => if u = "" then none else some u
        | none => none)
      timeout outcome elapsedMs
  else
    { ok := false, error := some s!"unknown target type: {target_type}" }

end Checker

namespace Db

/-- A row of the `pings` table of `backend/db.py` (`ok` is stored as the
integer 0/1, as in the SQLite schema; the JSON-serialised `headers`
column is modelled by the header list itself). -/
structure Ping where
  id : Nat
  server_id : Nat
  ts : ℚ
  ok : Nat
  status_code : Option Nat := none
  latency_ms : Option ℚ := none
  error : Option String := none
  headers : List (String × String) := []
  deriving Repr, DecidableEq

/-- A row of the `servers` table of `backend/db.py`. -/
structure Server where
  id : Nat
  name : Option String := none
  type : String
  host : String
  port : Int
  scheme : Option String := none
  path : Option String := none
  interval : Int
  created_at : ℚ
  updated_at : ℚ
  deriving Repr, DecidableEq

/-- The SQLite database of `backend/db.py`: the two tables plus the
AUTOINCREMENT counter for `pings.id`. -/
structure Database where
  servers : List Server := []
  pings : List Ping := []
  nextPingId : Nat := 1
  deriving Repr, DecidableEq

/-- The ping dict handed to `add_ping` (a field is `none` when the key
is absent; `ping.get('ok')` falsy means `ok = false`). -/
structure PingData where
  ts : Option ℚ := none
  ok : Bool := false
  status_code : Option Nat := none
  latency_ms : Option ℚ := none
  error : Option String := none
  headers : Option (List (String × String)) := none
  deriving Repr, DecidableEq

/-- The ordering used by `ORDER BY ts DESC`: descending timestamps. -/
def tsDesc (a b : Ping) : Prop := b.ts ≤ a.ts

instance : DecidableRel tsDesc := fun a b =>
  inferInstanceAs (Decidable (b.ts ≤ a.ts))

instance : IsTotal Ping tsDesc := ⟨fun a b => le_total b.ts a.ts⟩

instance : IsTrans Ping tsDesc := ⟨fun _ _ _ hab hbc => le_trans hbc hab⟩

/-- `SELECT * FROM pings WHERE server_id = ? ORDER BY ts DESC` (the
tie-break among equal timestamps is unspecified in SQLite; the model
fixes insertion sort as the canonical choice). -/
def pingsByTsDesc (db : Database) (server_id : Nat) : List Ping :=
  List.insertionSort tsDesc (db.pings.filter fun p => p.server_id = server_id)

/-- `add_ping` from `backend/db.py`: insert one row for `server_id`,
then delete every row of that server beyond the 100 most recent by
timestamp (`LIMIT -1 OFFSET 100`). `now` models `time.time()`. -/
def add_ping (db : Database) (server_id : Nat) (ping : PingData)
    (now : ℚ) : Database :=
  let ts := ping.ts.getD now
  let ok : Nat := if ping.ok then 1 else 0
  let headers := ping.headers.getD []
  let row : Ping :=
    { id := db.nextPingId, server_id := server_id, ts := ts, ok := ok,
      status_code := ping.status_code, latency_ms := ping.latency_ms,
      error := ping.error, headers := headers }
  let inserted := db.pings ++ [row]
  let sorted :=
    List.insertionSort tsDesc (inserted.filter fun p => p.server_id = server_id)
  let delIds := (sorted.drop 100).map fun p => p.id
  { db with
    pings := inserted.filter fun p => p.id ∉ delIds
    nextPingId := db.nextPingId + 1 }

/-- `get_pings` from `backend/db.py` (`LIMIT ?`: a negative SQL limit
means no limit). -/
def get_pings (db : Database) (server_id : Nat) (limit : Int) : List Ping :=
  let rows := pingsByTsDesc db server_id
  if limit < 0 then rows else rows.take limit.toNat

/-- `get_latest_ping` from `backend/db.py` (`ORDER BY ts DESC LIMIT 1`). -/
def get_latest_ping (db : Database) (server_id : Nat) : Option Ping :=
  (pingsByTsDesc db server_id).head?

/-- `get_server` from `backend/db.py`. -/
def get_server (db : Database) (server_id : Nat) : Option Server :=
  db.servers.find? fun s => s.id = server_id

/-- `delete_server` from `backend/db.py`: delete the server row and all
ping rows of that server (the Python function then returns `True`). -/
def delete_server (db : Database) (server_id : Nat) : Database :=
  { db with
    servers := db.servers.filter fun s => ¬s.id = server_id
    pings := db.pings.filter fun p => ¬p.server_id = server_id }

/-- The update dict handed to `update_server`: an outer `none` means the
key is absent from the dict (pydantic's `exclude_unset`); for the
nullable columns the inner `Option` is the stored value. -/
structure UpdateData where
  name : Option (Option String) := none
  type : Option String := none
  host : Option String := none
  port : Option Int := none
  scheme : Option (Option String) := none
  path : Option (Option String) := none
  interval : Option Int := none
  deriving Repr, DecidableEq

/-- Whether any of the seven updatable keys is present in the dict —
the `if not keys` test of `update_server`. -/
def hasUpdateKeys (u : UpdateData) : Bool :=
  u.name.isSome || u.type.isSome || u.host.isSome || u.port.isSome ||
    u.scheme.isSome || u.path.isSome || u.interval.isSome

/-- The effect of the generated `UPDATE servers SET ...` on one row:
each present key overwrites its column, and `updated_at` is set. -/
def applyUpdate (s : Server) (u : UpdateData) (now : ℚ) : Server :=
  { s with
    name := u.name.getD s.name
    type := u.type.getD s.type
    host := u.host.getD s.host
    port := u.port.getD s.port
    scheme := u.scheme.getD s.scheme
    path := u.path.getD s.path
    interval := u.interval.getD s.interval
    updated_at := now }

/-- `update_server` from `backend/db.py`: with no updatable key present
it returns the stored row without writing; otherwise it applies the
update to the row with the given id and returns the fresh row.  The
returned pair is (returned row, database after the call). -/
def update_server (db : Database) (server_id : Nat) (u : UpdateData)
    (now : ℚ) : Option Server × Database :=
  if hasUpdateKeys u then
    let servers := db.servers.map fun s =>
      if s.id = server_id then applyUpdate s u now else s
    let db' := { db with servers := servers }
    (get_server db' server_id, db')
  else
    (get_server db server_id, db)

/-- Number of history rows stored for one target. -/
def countPings (db : Database) (server_id : Nat) : Nat :=
  (db.pings.filter fun p => p.server_id = server_id).length

/-- The empty database produced by `init_db` on a fresh file. -/
def emptyDb : Database := {}

/-- A sequence of `add_ping` calls (target id, ping dict, wall-clock
time) run against a fresh database. -/
def runAppends (ops : List (Nat × PingData × ℚ)) : Database :=
  ops.foldl (fun db op => add_ping db op.1 op.2.1 op.2.2) emptyDb

/-- A one-server database used as a concrete evaluation point. -/
def sampleDb : Database :=
  { servers := [{ id := 1, type := "http", host := "h", port := 80,
                  interval := 60, created_at := 0, updated_at := 0 }] }

end Db

namespace App

/-- Status of an `asyncio.Task` in the model.  Cooperative cancellation
is modelled as taking effect at once: a `cancelled` task runs no further
loop iterations, matching the spec's treatment of `task.cancel()`. -/
inductive TaskStatus where
  | running
  | cancelled
  | done
  deriving Repr, DecidableEq

/-- One spawned probe-loop task of `backend/app.py`: the handle identity
of the `asyncio.Task`, the server id its `_check_loop` probes, and its
status. -/
structure Task where
  tid : Nat
  target : Nat
  status : TaskStatus
  deriving Repr, DecidableEq

/-- The supervisor state of `backend/app.py`: every task ever spawned
(the model keeps finished and cancelled ones so that the
no-two-concurrent-loops invariant can be stated), the `_tasks` dict
`server_id -> task handle`, and a fresh-handle counter. -/
structure Sup where
  tasks : List Task := []
  tmap : List (Nat × Nat) := []
  nextTid : Nat := 0
  deriving Repr, DecidableEq

/-- Association-list lookup modelling access to the `_tasks` dict. -/
def lookupT : List (Nat × Nat) → Nat → Option Nat
  | [], _ => none
  | (k, v) :: rest, key => if k = key then some v else lookupT rest key

/-- Key removal (`_tasks.pop(sid, None)` dropping the entry). -/
def removeT (m : List (Nat × Nat)) (k : Nat) : List (Nat × Nat) :=
  m.filter fun e => ¬e.1 = k

/-- Assignment `_tasks[sid] = task`. -/
def setT (m : List (Nat × Nat)) (k v : Nat) : List (Nat × Nat) :=
  (k, v) :: removeT m k

/-- `task.cancel()` on the task with handle `tid`: a running task
becomes cancelled; an already finished or cancelled one is unchanged. -/
def cancelTid (tasks : List Task) (tid : Nat) : List Task :=
  tasks.map fun t =>
    if t.tid = tid then
      if t.status = .running then { t with status := .cancelled } else t
    else t

/-- `not _tasks[sid].done()` for the handle stored under the id. -/
def taskNotDone (tasks : List Task) (tid : Nat) : Bool :=
  match tasks.find? fun t => t.tid = tid with
  | some t => t.status = .running
  | none => false

/-- The guard of `_start_task_for_server`:
`if sid in _tasks and not _tasks[sid].done(): _tasks[sid].cancel()`. -/
def startCancelStep (s : Sup) (sid : Nat) : Sup :=
  match lookupT s.tmap sid with
  | some tid =>
    if taskNotDone s.tasks tid then
      { s with tasks := cancelTid s.tasks tid }
    else s
  | none => s

/-- `_start_task_for_server` from `backend/app.py`: if the `_tasks` dict
holds a not-done task for the id, cancel it first; then create a fresh
task for the id and register it under the id. -/
def start_task_for_server (s : Sup) (sid : Nat) : Sup :=
  let s1 := startCancelStep s sid
  { tasks := s1.tasks ++
      [({ tid := s.nextTid, target := sid, status := .running } : Task)]
    tmap := setT s1.tmap sid s.nextTid
    nextTid := s.nextTid + 1 }

/-- `_cancel_task` from `backend/app.py`: pop the id from the dict
(absent id: no-op) and cancel the popped task if it is not done. -/
def cancel_task (s : Sup) (sid : Nat) : Sup :=
  match lookupT s.tmap sid with
  | none => s
  | some tid =>
    { s with tmap := removeT s.tmap sid, tasks := cancelTid s.tasks tid }

/-- No pair of distinct tasks is simultaneously running against the
same target. -/
def NotBothActive (a b : Task) : Prop :=
  ¬(a.status = .running ∧ b.status = .running ∧ a.target = b.target)

instance : DecidableRel NotBothActive := fun a b =>
  inferInstanceAs (Decidable (¬(a.status = .running ∧
    b.status = .running ∧ a.target = b.target)))

/-- Supervisor well-formedness: task handles are fresh and unique, no
two distinct running tasks probe the same target, and every running
task is the one registered in the `_tasks` dict for its target. -/
def Inv (s : Sup) : Prop :=
  (∀ t ∈ s.tasks, t.tid < s.nextTid) ∧
  (s.tasks.map fun t => t.tid).Nodup ∧
  s.tasks.Pairwise NotBothActive ∧
  (∀ t ∈ s.tasks, t.status = .running →
    lookupT s.tmap t.target = some t.tid)

instance (s : Sup) : Decidable (Inv s) := by
  unfold Inv
  exact inferInstance

/-- Number of active (running) tasks probing a target id. -/
def countActive (tasks : List Task) (sid : Nat) : Nat :=
  tasks.countP fun t => t.target = sid ∧ t.status = .running

/-- A supervisor state with one running task, used as a concrete
evaluation point. -/
def sampleSup : Sup :=
  { tasks := [{ tid := 0, target := 1, status := .running }]
    tmap := [(1, 0)]
    nextTid := 1 }

end App

namespace Checker

/-- `sanitize_host_port` never changes the host. -/
theorem sanitize_host_port_fst (host : String) (port : Option Int) :
    (sanitize_host_port host port).1 = host := by
  cases port <;> rfl

/-- C1 (counterexample): a squid-kind call to `check` with an absent port
probes the proxy endpoint `http://h:80`, not `http://h:3128` as the claim
states — `sanitize_host_port` defaults the absent port to 80 before the
squid branch's `port or 3128` fallback can see it. -/
theorem check_squid_absent_port_is_80_cex :
    (check "squid" "h" none "http" "/" 8 none (.failure "boom") 0).proxy
        = some "http://h:80" ∧
      ("http://h:80" : String) ≠ "http://h:3128" := by
  exact ⟨by decide, by decide⟩

/-- C1 (amended): for every squid/proxy-kind call to `check` with an
absent port, the proxy endpoint probed is `http://host:80` — the same
default 80 an http/nginx-kind call gets — because `sanitize_host_port`
turns an absent port into 80; the squid branch's 3128 fallback fires only
when the sanitized port is 0. -/
theorem check_absent_port_defaults_to_80 (kind host scheme path : String)
    (timeout : ℚ) (test_url : Option String) (outcome : HttpOutcome)
    (elapsedMs : ℚ) :
    (lowerStr kind = "squid" ∨ lowerStr kind = "proxy" →
      (check kind host none scheme path timeout test_url outcome
          elapsedMs).proxy = some s!"http://{host}:{(80 : Int)}") ∧
    (lowerStr kind = "http" ∨ lowerStr kind = "nginx" →
      (check kind host none scheme path timeout test_url outcome
          elapsedMs).url = some s!"{scheme}://{host}:{(80 : Int)}{path}") ∧
    (lowerStr kind = "squid" ∨ lowerStr kind = "proxy" →
      (check kind host (some 0) scheme path timeout test_url outcome
          elapsedMs).proxy = some s!"http://{host}:{(3128 : Int)}") := by
  refine ⟨fun hk => ?_, fun hk => ?_, fun hk => ?_⟩ <;>
    rcases hk with h | h <;>
      cases outcome <;>
        simp [check, sanitize_host_port, check_squid_proxy,
          check_http_server, h]

/-- C1 (witness for the amended theorem). -/
theorem check_absent_port_defaults_to_80_witness :
    (check "Squid" "h" none "http" "/" 8 none (.failure "x") 0).proxy
      = some "http://h:80" := by
  rw [(check_absent_port_defaults_to_80 "Squid" "h" "http" "/" 8 none
    (.failure "x") 0).1 (Or.inl (by decide))]
  decide

/-- C4: for every kind string not lower-casing to one of the four
aliases, `check` returns `ok = false`, the error string exactly
`"unknown target type: <kind>"`, and no latency field; `check` is a total
function, so no exception escapes. -/
theorem check_unknown_kind (kind host : String) (port : Option Int)
    (scheme path : String) (timeout : ℚ) (test_url : Option String)
    (outcome : HttpOutcome) (elapsedMs : ℚ)
    (h1 : lowerStr kind ≠ "http") (h2 : lowerStr kind ≠ "nginx")
    (h3 : lowerStr kind ≠ "squid") (h4 : lowerStr kind ≠ "proxy") :
    (check kind host port scheme path timeout test_url outcome
        elapsedMs).ok = false ∧
    (check kind host port scheme path timeout test_url outcome
        elapsedMs).error = some ("unknown target type: " ++ kind) ∧
    (check kind host port scheme path timeout test_url outcome
        elapsedMs).latency_ms = none := by
  simp [check, h1, h2, h3, h4, toString]

/-- C4 (witness). -/
theorem check_unknown_kind_witness :
    (check "unknown" "localhost" (some 1234) "http" "/" 8 none
        (.failure "x") 0).ok = false ∧
    (check "unknown" "localhost" (some 1234) "http" "/" 8 none
        (.failure "x") 0).error
      = some ("unknown target type: " ++ "unknown") ∧
    (check "unknown" "localhost" (some 1234) "http" "/" 8 none
        (.failure "x") 0).latency_ms = none :=
  check_unknown_kind "unknown" "localhost" (some 1234) "http" "/" 8 none
    (.failure "x") 0 (by decide) (by decide) (by decide) (by decide)

/-- C9: kind dispatch in `check` is case-insensitive — any kind whose
lower-casing is an http/nginx alias dispatches to `check_http_server`
(recorded type `"http"`), and any kind whose lower-casing is a
squid/proxy alias dispatches to `check_squid_proxy` (recorded type
`"squid"`), regardless of the alias or casing used. -/
theorem check_dispatch_case_insensitive (kind host : String)
    (port : Option Int) (scheme path : String) (timeout : ℚ)
    (test_url : Option String) (outcome : HttpOutcome) (elapsedMs : ℚ) :
    (lowerStr kind = "http" ∨ lowerStr kind = "nginx" →
      check kind host port scheme path timeout test_url outcome elapsedMs
        = check_http_server host (sanitize_host_port host port).2 scheme
            path timeout outcome elapsedMs ∧
      (check kind host port scheme path timeout test_url outcome
          elapsedMs).type = some "http") ∧
    (lowerStr kind = "squid" ∨ lowerStr kind = "proxy" →
      check kind host port scheme path timeout test_url outcome elapsedMs
        = check_squid_proxy host
            (if (sanitize_host_port host port).2 = 0 then 3128
              else (sanitize_host_port host port).2)
            (match test_url with
              | some u => if u = "" then none else some u
              | none => none)
            timeout outcome elapsedMs ∧
      (check kind host port scheme path timeout test_url outcome
          elapsedMs).type = some "squid") := by
  constructor <;> intro hk <;>
    rcases hk with h | h <;>
      cases outcome <;>
        simp [check, check_http_server, check_squid_proxy,
          sanitize_host_port_fst, h]

/-- C9 (witness). -/
theorem check_dispatch_case_insensitive_witness :
    (check "HTTP" "example.com" (some 80) "http" "/" 8 none
        (.response 200 [("server", "nginx")]) 12).type = some "http" ∧
    (check "Squid" "h" (some 3128) "http" "/" 8 none
        (.failure "x") 0).type = some "squid" :=
  ⟨((check_dispatch_case_insensitive "HTTP" "example.com" (some 80) "http"
      "/" 8 none (.response 200 [("server", "nginx")]) 12).1
      (Or.inl (by decide))).2,
   ((check_dispatch_case_insensitive "Squid" "h" (some 3128) "http" "/" 8
      none (.failure "x") 0).2 (Or.inl (by decide))).2⟩

/-- C6: every http/nginx-kind or squid/proxy-kind probe through `check`
returns a result whose `latency_ms` field is present and equal to the
elapsed wall-clock milliseconds of the network operation rounded to one
decimal place, on the success branch and the failure branch alike. -/
theorem check_latency_always_present (kind host : String)
    (port : Option Int) (scheme path : String) (timeout : ℚ)
    (test_url : Option String) (outcome : HttpOutcome) (elapsedMs : ℚ)
    (hk : lowerStr kind = "http" ∨ lowerStr kind = "nginx" ∨
      lowerStr kind = "squid" ∨ lowerStr kind = "proxy") :
    (check kind host port scheme path timeout test_url outcome
        elapsedMs).latency_ms = some (round1 elapsedMs) := by
  rcases hk with h | h | h | h <;>
    cases outcome <;>
      simp [check, check_http_server, check_squid_proxy, h]

/-- C6 (witness). -/
theorem check_latency_always_present_witness :
    (check "nginx" "h" (some 80) "http" "/" 8 none (.failure "boom")
        7).latency_ms = some (round1 7) :=
  check_latency_always_present "nginx" "h" (some 80) "http" "/" 8 none
    (.failure "boom") 7 (Or.inr (Or.inl (by decide)))

/-- C7: for both probe functions, a response yields a result carrying
`status_code` and `headers` and no `error`, while a transport/timeout
failure yields a result carrying the stringified error and neither
`status_code` nor `headers`. -/
theorem probe_result_field_presence (host : String) (port : Int)
    (scheme path : String) (test_url : Option String) (timeout : ℚ)
    (status : Nat) (hdrs : List (String × String)) (e : String)
    (elapsedMs : ℚ) :
    ((check_http_server host port scheme path timeout
        (.response status hdrs) elapsedMs).status_code = some status ∧
      (check_http_server host port scheme path timeout
        (.response status hdrs) elapsedMs).headers = some hdrs ∧
      (check_http_server host port scheme path timeout
        (.response status hdrs) elapsedMs).error = none) ∧
    ((check_http_server host port scheme path timeout (.failure e)
        elapsedMs).error = some e ∧
      (check_http_server host port scheme path timeout (.failure e)
        elapsedMs).status_code = none ∧
      (check_http_server host port scheme path timeout (.failure e)
        elapsedMs).headers = none) ∧
    ((check_squid_proxy host port test_url timeout
        (.response status hdrs) elapsedMs).status_code = some status ∧
      (check_squid_proxy host port test_url timeout
        (.response status hdrs) elapsedMs).headers = some hdrs ∧
      (check_squid_proxy host port test_url timeout
        (.response status hdrs) elapsedMs).error = none) ∧
    ((check_squid_proxy host port test_url timeout (.failure e)
        elapsedMs).error = some e ∧
      (check_squid_proxy host port test_url timeout (.failure e)
        elapsedMs).status_code = none ∧
      (check_squid_proxy host port test_url timeout (.failure e)
        elapsedMs).headers = none) := by
  refine ⟨⟨rfl, rfl, rfl⟩, ⟨rfl, rfl, rfl⟩, ⟨?_, ?_, ?_⟩, ⟨?_, ?_, ?_⟩⟩ <;>
    simp [check_squid_proxy]

end Checker

namespace Db

/-- Filtering for a predicate after filtering for its negation leaves
nothing. -/
theorem filter_after_filter_not {α : Type} (p : α → Prop) [DecidablePred p]
    (l : List α) : (l.filter fun a => ¬p a).filter (fun a => p a) = [] := by
  induction l with
  | nil => rfl
  | cons a t ih => by_cases h : p a <;> simp [h, ih]

/-- C5: deleting a target erases its history together with its row —
after `delete_server`, `get_server` is absent, `get_pings` returns the
empty sequence for every limit, `get_latest_ping` returns `none`, and no
orphan ping row for that id survives in the table. -/
theorem delete_server_erases_history (db : Database) (server_id : Nat)
    (limit : Int) :
    get_server (delete_server db server_id) server_id = none ∧
    get_pings (delete_server db server_id) server_id limit = [] ∧
    get_latest_ping (delete_server db server_id) server_id = none ∧
    ∀ p ∈ (delete_server db server_id).pings, p.server_id ≠ server_id := by
  have hp : (delete_server db server_id).pings.filter
      (fun p => p.server_id = server_id) = [] :=
    filter_after_filter_not _ db.pings
  refine ⟨?_, ?_, ?_, ?_⟩
  · rw [get_server, List.find?_eq_none]
    intro x hx
    simp only [delete_server, List.mem_filter, decide_eq_true_eq] at hx
    simpa using hx.2
  · rw [get_pings, pingsByTsDesc, hp]
    split <;> simp
  · rw [get_latest_ping, pingsByTsDesc, hp]
    simp
  · intro p hp'
    simp only [delete_server, List.mem_filter, decide_eq_true_eq] at hp'
    simpa using hp'.2

/-- C10: an `update_server` call whose data dict contains none of the
seven updatable keys performs no write at all — it returns the currently
stored row for the id (absent indicator included) and leaves every row,
`updated_at` included, exactly as stored. -/
theorem update_server_no_keys_reads_only (db : Database)
    (server_id : Nat) (u : UpdateData) (now : ℚ)
    (h : hasUpdateKeys u = false) :
    update_server db server_id u now = (get_server db server_id, db) := by
  simp [update_server, h]

/-- C10 (witness). -/
theorem update_server_no_keys_reads_only_witness :
    update_server sampleDb 1 {} 5 = (get_server sampleDb 1, sampleDb) :=
  update_server_no_keys_reads_only sampleDb 1 {} 5 rfl

/-- List-level pruning bound behind `add_ping`: once the rows beyond the
`n` most recent (by `tsDesc`) for `sid` are deleted, at most `n` rows
for `sid` remain in the table. -/
theorem length_filter_prune (l : List Ping) (sid n : Nat) :
    ((l.filter fun p =>
        p.id ∉ ((List.insertionSort tsDesc
            (l.filter fun p => p.server_id = sid)).drop n).map
          (fun p => p.id)).filter
      fun p => p.server_id = sid).length ≤ n := by
  set srv := l.filter fun p => p.server_id = sid with hsrv
  set sorted := List.insertionSort tsDesc srv with hsorted
  set delIds := (sorted.drop n).map (fun p => p.id) with hdel
  rw [List.filter_comm, ← hsrv]
  have hperm : ((srv.filter fun p => p.id ∉ delIds).length)
      = ((sorted.filter fun p => p.id ∉ delIds).length) :=
    (((List.perm_insertionSort tsDesc srv).filter _).length_eq).symm
  rw [hperm]
  have hnil : (sorted.drop n).filter (fun p => p.id ∉ delIds) = [] := by
    refine List.filter_eq_nil_iff.mpr fun a ha => ?_
    simp only [decide_eq_true_eq, not_not]
    exact hdel ▸ List.mem_map_of_mem _ ha
  calc (sorted.filter fun p => p.id ∉ delIds).length
      = ((sorted.take n ++ sorted.drop n).filter
          fun p => p.id ∉ delIds).length := by
        rw [List.take_append_drop]
    _ = ((sorted.take n).filter (fun p => p.id ∉ delIds)).length := by
        rw [List.filter_append, hnil, List.append_nil]
    _ ≤ (sorted.take n).length := List.length_filter_le _ _
    _ ≤ n := by rw [List.length_take]; exact min_le_left _ _

/-- After any single `add_ping` call, the pruned table holds at most 100
rows for the target appended to — whatever the prior state was. -/
theorem add_ping_count_le (db : Database) (sid : Nat) (p : PingData)
    (now : ℚ) : countPings (add_ping db sid p now) sid ≤ 100 := by
  simp only [add_ping, countPings]
  exact length_filter_prune _ sid 100

/-- An `add_ping` call for a different target never increases the row
count of `sid`. -/
theorem add_ping_count_mono (db : Database) (j sid : Nat) (p : PingData)
    (now : ℚ) (h : j ≠ sid) :
    countPings (add_ping db j p now) sid ≤ countPings db sid := by
  simp only [add_ping, countPings]
  rw [List.filter_comm]
  refine le_trans (List.length_filter_le _ _) ?_
  rw [List.filter_append]
  simp [h]

/-- The per-target 100-row bound holds in every state reachable by
`add_ping` calls from a fresh database. -/
theorem runAppends_count_le (ops : List (Nat × PingData × ℚ))
    (sid : Nat) : countPings (runAppends ops) sid ≤ 100 := by
  suffices h : ∀ db, countPings db sid ≤ 100 →
      countPings (ops.foldl
        (fun db op => add_ping db op.1 op.2.1 op.2.2) db) sid ≤ 100 by
    exact h emptyDb (by simp [countPings, emptyDb])
  induction ops with
  | nil => exact fun db hdb => hdb
  | cons op rest ih =>
    intro db hdb
    refine ih (add_ping db op.1 op.2.1 op.2.2) ?_
    by_cases hop : op.1 = sid
    · exact hop ▸ add_ping_count_le db op.1 op.2.1 op.2.2
    · exact le_trans (add_ping_count_mono db op.1 sid op.2.1 op.2.2 hop) hdb

/-- C2: after any number of `add_ping` appends the per-target history
holds at most 100 rows — a single `add_ping` prunes its target down to
at most 100 whatever the prior state was — and `get_pings id N` (with a
non-negative N) returns at most `min N 100` entries, ordered by
timestamp descending. -/
theorem history_capped_at_100 (ops : List (Nat × PingData × ℚ))
    (db : Database) (sid : Nat) (p : PingData) (now : ℚ) (limit : Int)
    (hl : 0 ≤ limit) :
    countPings (add_ping db sid p now) sid ≤ 100 ∧
    countPings (runAppends ops) sid ≤ 100 ∧
    (get_pings (runAppends ops) sid limit).length ≤ min limit.toNat 100 ∧
    List.Sorted tsDesc (get_pings (runAppends ops) sid limit) := by
  have hcond : ¬limit < 0 := not_lt.mpr hl
  refine ⟨add_ping_count_le db sid p now, runAppends_count_le ops sid,
    ?_, ?_⟩
  · simp only [get_pings]
    rw [if_neg hcond]
    have hlen : (pingsByTsDesc (runAppends ops) sid).length ≤ 100 := by
      rw [pingsByTsDesc,
        (List.perm_insertionSort tsDesc _).length_eq]
      exact runAppends_count_le ops sid
    refine le_min ?_ ?_
    · rw [List.length_take]; exact min_le_left _ _
    · calc (List.take limit.toNat
            (pingsByTsDesc (runAppends ops) sid)).length
          ≤ (pingsByTsDesc (runAppends ops) sid).length :=
            (List.take_sublist _ _).length_le
        _ ≤ 100 := hlen
  · simp only [get_pings]
    rw [if_neg hcond]
    exact List.Pairwise.sublist (List.take_sublist _ _)
      (List.sorted_insertionSort tsDesc _)

/-- C2 (witness). -/
theorem history_capped_at_100_witness :
    (get_pings (runAppends [(1, { ok := true, ts := some 3 }, 3),
        (1, { ok := false, ts := some 7 }, 7)]) 1 5).length
      ≤ min (5 : Int).toNat 100 :=
  (history_capped_at_100 [(1, { ok := true, ts := some 3 }, 3),
      (1, { ok := false, ts := some 7 }, 7)]
    emptyDb 1 {} 0 5 (by decide)).2.2.1

end Db

namespace App

/-- Looking up a key just removed from the dict yields nothing. -/
theorem lookupT_removeT_self (m : List (Nat × Nat)) (k : Nat) :
    lookupT (removeT m k) k = none := by
  induction m with
  | nil => rfl
  | cons e rest ih =>
    by_cases h : e.1 = k
    · simpa [removeT, List.filter_cons, h] using ih
    · simpa [removeT, List.filter_cons, lookupT, h] using ih

/-- Removing one key leaves lookups of other keys unchanged. -/
theorem lookupT_removeT_ne (m : List (Nat × Nat)) (k k' : Nat)
    (h : k' ≠ k) : lookupT (removeT m k) k' = lookupT m k' := by
  induction m with
  | nil => rfl
  | cons e rest ih =>
    by_cases he : e.1 = k
    · have he' : e.1 ≠ k' := by rw [he]; exact fun hk => h hk.symm
      simpa [removeT, List.filter_cons, lookupT, he, he', Ne.symm h]
        using ih
    · by_cases he' : e.1 = k'
      · simp [removeT, List.filter_cons, lookupT, he, he', h]
      · simpa [removeT, List.filter_cons, lookupT, he, he'] using ih

/-- Setting a key stores exactly that handle under it. -/
theorem lookupT_setT_self (m : List (Nat × Nat)) (k v : Nat) :
    lookupT (setT m k v) k = some v := by
  simp [setT, lookupT]

/-- Setting one key leaves lookups of other keys unchanged. -/
theorem lookupT_setT_ne (m : List (Nat × Nat)) (k v k' : Nat)
    (h : k' ≠ k) : lookupT (setT m k v) k' = lookupT m k' := by
  have : k ≠ k' := fun hk => h hk.symm
  simp only [setT, lookupT, if_neg this]
  exact lookupT_removeT_ne m k k' h

/-- C8: `_cancel_task` is total and idempotent — on an id with no
registered task it is a no-op raising no error, a second call in a row
changes nothing beyond the first, and after a call no task is present
for the id. -/
theorem cancel_task_idempotent (s : Sup) (sid : Nat) :
    (lookupT s.tmap sid = none → cancel_task s sid = s) ∧
    cancel_task (cancel_task s sid) sid = cancel_task s sid ∧
    lookupT (cancel_task s sid).tmap sid = none := by
  refine ⟨fun h => by simp [cancel_task, h], ?_, ?_⟩
  · rcases hl : lookupT s.tmap sid with _ | tid
    · simp [cancel_task, hl]
    · have h2 : lookupT (removeT s.tmap sid) sid = none :=
        lookupT_removeT_self s.tmap sid
      simp [cancel_task, hl, h2]
  · rcases hl : lookupT s.tmap sid with _ | tid
    · simp [cancel_task, hl]
    · simpa [cancel_task, hl] using lookupT_removeT_self s.tmap sid

/-- C8 (witness). -/
theorem cancel_task_idempotent_witness :
    cancel_task ({} : Sup) 7 = ({} : Sup) ∧
    cancel_task (cancel_task sampleSup 1) 1 = cancel_task sampleSup 1 :=
  ⟨(cancel_task_idempotent ({} : Sup) 7).1 rfl,
   (cancel_task_idempotent sampleSup 1).2.1⟩

/-- `find?` by task handle returns the member itself when handles are
unique. -/
theorem find?_tid_eq (tasks : List Task) (t : Task)
    (huniq : (tasks.map fun x => x.tid).Nodup) (ht : t ∈ tasks) :
    (tasks.find? fun x => x.tid = t.tid) = some t := by
  induction tasks with
  | nil => cases ht
  | cons a rest ih =>
    rcases List.mem_cons.1 ht with rfl | hmem
    · exact List.find?_cons_of_pos _ (by simp)
    · rw [List.map_cons] at huniq
      have hnodup := List.nodup_cons.1 huniq
      have hne : ¬a.tid = t.tid := fun he =>
        hnodup.1 (he ▸ List.mem_map_of_mem (fun x => x.tid) hmem)
      rw [List.find?_cons_of_neg _ (by simp [hne])]
      exact ih hnodup.2 hmem

/-- Membership in `cancelTid`: each element is either an untouched
original (one the cancel did not hit) or the cancelled copy of the
running task with the cancelled handle. -/
theorem mem_cancelTid {l : List Task} {tid : Nat} {x : Task}
    (hx : x ∈ cancelTid l tid) :
    ∃ t ∈ l, (x = t ∧ ¬(t.tid = tid ∧ t.status = .running)) ∨
      (t.tid = tid ∧ t.status = .running ∧
        x = { t with status := .cancelled }) := by
  rcases List.mem_map.1 hx with ⟨t, ht, rfl⟩
  refine ⟨t, ht, ?_⟩
  by_cases h1 : t.tid = tid
  · by_cases h2 : t.status = .running
    · exact Or.inr ⟨h1, h2, by simp [h1, h2]⟩
    · exact Or.inl ⟨by simp [h1, h2], fun hc => h2 hc.2⟩
  · exact Or.inl ⟨by simp [h1], fun hc => h1 hc.1⟩

/-- Cancelling never changes task handles. -/
theorem cancelTid_map_tid (l : List Task) (tid : Nat) :
    (cancelTid l tid).map (fun t => t.tid) = l.map fun t => t.tid := by
  unfold cancelTid
  rw [List.map_map]
  refine List.map_congr_left fun t _ => ?_
  by_cases h1 : t.tid = tid <;> by_cases h2 : t.status = .running <;>
    simp [h1, h2]

/-- Cancelling preserves the no-two-running-loops property. -/
theorem cancelTid_pairwise {l : List Task} {tid : Nat}
    (h : l.Pairwise NotBothActive) :
    (cancelTid l tid).Pairwise NotBothActive := by
  unfold cancelTid
  refine h.map _ fun a b hab hcon => hab ?_
  have hstat : ∀ c : Task,
      (if c.tid = tid then
        if c.status = .running then { c with status := .cancelled }
        else c else c).status = .running → c.status = .running := by
    intro c
    by_cases h1 : c.tid = tid <;> by_cases h2 : c.status = .running <;>
      simp [h1, h2]
  have htgt : ∀ c : Task,
      (if c.tid = tid then
        if c.status = .running then { c with status := .cancelled }
        else c else c).target = c.target := by
    intro c
    by_cases h1 : c.tid = tid <;> by_cases h2 : c.status = .running <;>
      simp [h1, h2]
  obtain ⟨h1, h2, h3⟩ := hcon
  exact ⟨hstat a h1, hstat b h2, by rw [htgt a, htgt b] at h3; exact h3⟩

/-- The cancel step of `_start_task_for_server` does not touch the
`_tasks` dict. -/
theorem startCancelStep_tmap (s : Sup) (sid : Nat) :
    (startCancelStep s sid).tmap = s.tmap := by
  unfold startCancelStep
  split
  · split <;> rfl
  · rfl

/-- After the cancel step of `_start_task_for_server`, no task for the
id is still running (given supervisor well-formedness). -/
theorem startCancelStep_no_active (s : Sup) (sid : Nat) (h : Inv s) :
    ∀ x ∈ (startCancelStep s sid).tasks,
      ¬(x.target = sid ∧ x.status = .running) := by
  obtain ⟨_, huniq, _, hmap⟩ := h
  intro x hx hcon
  obtain ⟨hxt, hxs⟩ := hcon
  rcases hl : lookupT s.tmap sid with _ | tid
  · simp only [startCancelStep, hl] at hx
    have h4 := hmap x hx hxs
    rw [hxt, hl] at h4
    cases h4
  · simp only [startCancelStep, hl] at hx
    by_cases hnd : taskNotDone s.tasks tid
    · rw [if_pos hnd] at hx
      obtain ⟨t, ht, hcase⟩ := mem_cancelTid hx
      rcases hcase with ⟨heq, hnot⟩ | ⟨_, _, heq⟩
      · subst heq
        have h4 := hmap x ht hxs
        rw [hxt, hl] at h4
        exact hnot ⟨(Option.some_inj.1 h4).symm, hxs⟩
      · rw [heq] at hxs
        simp at hxs
    · rw [if_neg hnd] at hx
      have h4 := hmap x hx hxs
      rw [hxt, hl] at h4
      apply hnd
      unfold taskNotDone
      rw [Option.some_inj.1 h4, find?_tid_eq s.tasks x huniq hx]
      simp [hxs]

/-- The tasks after the cancel step: untouched, or with one handle
cancelled. -/
theorem startCancelStep_tasks (s : Sup) (sid : Nat) :
    (startCancelStep s sid).tasks = s.tasks ∨
      ∃ tid, (startCancelStep s sid).tasks = cancelTid s.tasks tid := by
  unfold startCancelStep
  split
  · split
    · exact Or.inr ⟨_, rfl⟩
    · exact Or.inl rfl
  · exact Or.inl rfl

/-- C3: `_start_task_for_server` preserves supervisor well-formedness;
after it runs, exactly one active task probes the started id, and every
task that was running for that id beforehand has been cancelled — the
task map never holds two concurrent loops for one id. -/
theorem start_task_single_active (s : Sup) (sid : Nat) (h : Inv s) :
    Inv (start_task_for_server s sid) ∧
    countActive (start_task_for_server s sid).tasks sid = 1 ∧
    ∀ t ∈ s.tasks, t.status = .running → t.target = sid →
      ∃ t' ∈ (start_task_for_server s sid).tasks,
        t'.tid = t.tid ∧ t'.status = .cancelled := by
  obtain ⟨hfresh, huniq, hpair, hmap⟩ := h
  have hno := startCancelStep_no_active s sid ⟨hfresh, huniq, hpair, hmap⟩
  have htm := startCancelStep_tmap s sid
  have htasks := startCancelStep_tasks s sid
  have hmaptid : (startCancelStep s sid).tasks.map (fun t => t.tid)
      = s.tasks.map fun t => t.tid := by
    rcases htasks with h1 | ⟨tid, h1⟩ <;> rw [h1]
    exact cancelTid_map_tid s.tasks tid
  have hpair1 : (startCancelStep s sid).tasks.Pairwise NotBothActive := by
    rcases htasks with h1 | ⟨tid, h1⟩ <;> rw [h1]
    exacts [hpair, cancelTid_pairwise hpair]
  have hfresh1 : ∀ t ∈ (startCancelStep s sid).tasks,
      t.tid < s.nextTid := by
    intro t ht
    rcases htasks with h1 | ⟨tid, h1⟩
    · exact hfresh t (h1 ▸ ht)
    · rw [h1] at ht
      obtain ⟨u, hu, hcase⟩ := mem_cancelTid ht
      rcases hcase with ⟨heq, _⟩ | ⟨_, _, heq⟩ <;> rw [heq] <;>
        exact hfresh u hu
  have hactive1 : ∀ t ∈ (startCancelStep s sid).tasks,
      t.status = .running → t ∈ s.tasks := by
    intro t ht hrun
    rcases htasks with h1 | ⟨tid, h1⟩
    · exact h1 ▸ ht
    · rw [h1] at ht
      obtain ⟨u, hu, hcase⟩ := mem_cancelTid ht
      rcases hcase with ⟨heq, _⟩ | ⟨_, _, heq⟩
      · exact heq ▸ hu
      · rw [heq] at hrun
        simp at hrun
  have hcount : countActive (start_task_for_server s sid).tasks sid = 1 := by
    show countActive ((startCancelStep s sid).tasks ++
      [({ tid := s.nextTid, target := sid, status := .running } : Task)]) sid = 1
    rw [countActive, List.countP_append]
    have h0 : (startCancelStep s sid).tasks.countP
        (fun t => decide (t.target = sid ∧ t.status = .running)) = 0 :=
      List.countP_eq_zero.mpr fun a ha => by simpa using hno a ha
    rw [h0]
    simp
  refine ⟨⟨?_, ?_, ?_, ?_⟩, hcount, ?_⟩
  · intro t ht
    rcases List.mem_append.1 ht with h1 | h1
    · exact lt_trans (hfresh1 t h1) (Nat.lt_succ_self _)
    · simp only [List.mem_singleton] at h1
      rw [h1]
      exact Nat.lt_succ_self _
  · show ((startCancelStep s sid).tasks ++
      [({ tid := s.nextTid, target := sid, status := .running } : Task)]).map
        (fun t => t.tid) |>.Nodup
    rw [List.map_append, hmaptid, List.nodup_append]
    refine ⟨huniq, List.nodup_singleton _, ?_⟩
    intro a ha hb
    simp only [List.map_cons, List.map_nil, List.mem_singleton] at hb
    obtain ⟨t, ht, htid⟩ := List.mem_map.1 ha
    rw [hb] at htid
    exact absurd (htid ▸ hfresh t ht) (lt_irrefl s.nextTid)
  · show ((startCancelStep s sid).tasks ++
      [({ tid := s.nextTid, target := sid, status := .running } : Task)]).Pairwise
        NotBothActive
    rw [List.pairwise_append]
    refine ⟨hpair1, by simp, ?_⟩
    intro a ha b hb
    simp only [List.mem_singleton] at hb
    rw [hb]
    intro hcon
    exact hno a ha ⟨hcon.2.2, hcon.1⟩
  · intro t ht hrun
    rcases List.mem_append.1 ht with h1 | h1
    · have hts : t ∈ s.tasks := hactive1 t h1 hrun
      have htarget : t.target ≠ sid := fun he => hno t h1 ⟨he, hrun⟩
      show lookupT (setT (startCancelStep s sid).tmap sid s.nextTid)
        t.target = some t.tid
      rw [htm, lookupT_setT_ne _ _ _ _ htarget]
      exact hmap t hts hrun
    · simp only [List.mem_singleton] at h1
      rw [h1]
      show lookupT (setT (startCancelStep s sid).tmap sid s.nextTid) sid
        = some s.nextTid
      exact lookupT_setT_self _ sid s.nextTid
  · intro t ht hrun htgt
    have hl : lookupT s.tmap sid = some t.tid := htgt ▸ hmap t ht hrun
    have hnd : taskNotDone s.tasks t.tid = true := by
      unfold taskNotDone
      rw [find?_tid_eq s.tasks t huniq ht]
      simp [hrun]
    have hs1 : (startCancelStep s sid).tasks = cancelTid s.tasks t.tid := by
      unfold startCancelStep
      rw [hl]
      dsimp only
      rw [if_pos hnd]
    refine ⟨{ t with status := .cancelled }, ?_, rfl, rfl⟩
    refine List.mem_append_left _ ?_
    rw [hs1]
    unfold cancelTid
    exact List.mem_map.2 ⟨t, ht, by simp [hrun]⟩

/-- C3 (witness). -/
theorem start_task_single_active_witness :
    countActive (start_task_for_server sampleSup 1).tasks 1 = 1 :=
  (start_task_single_active sampleSup 1 (by decide)).2.1

end App
